import Mathlib

/-!
Verification of the Chinese fuzzy time parser (`mcp_chinese_time/parser.py`).

The development shallowly embeds the parser: dates are proleptic-Gregorian
ordinals (as in Python's `date.toordinal`), the cached "now" reference and the
injected lunar-calendar collaborator live in a `Ctx`, fallible code — the bare
`datetime(...)` constructor call in `_parse_time_of_day` and the `int(cn)`
call of `_cn_to_num`, whose Unicode `isdigit`/`int`/`\d` semantics are
modelled from the runtime's Unicode tables — returns `Except`, and caught
exceptions (`_parse_specific_date`) are modelled by validity checks.
Confidence scores are rationals, mirroring the float literals of the source.
One acknowledged simplification: date arithmetic runs on unbounded ordinals,
so the `OverflowError`/`ValueError` Python raises when a computed date leaves
the supported year range 1..9999 (e.g. `now + timedelta(days=10**7)`) is out
of model scope; no theorem below depends on that extreme-range path.
-/

namespace ChineseTime

/-! ## Calendar arithmetic (Python `datetime.date`) -/

/-- `FuzzyTimeParser._is_leap_year` (also `calendar.isleap`). -/
def is_leap_year (y : Int) : Bool :=
  (y % 4 == 0 && y % 100 != 0) || y % 400 == 0

/-- Length of a month, as `calendar.monthrange(y, m)[1]`. -/
def days_in_month (y : Int) (m : Nat) : Nat :=
  if m == 2 then (if is_leap_year y then 29 else 28)
  else [31, 28, 31, 30, 31, 30, 31, 31, 30, 31, 30, 31].getD (m - 1) 0

/-- Days in year `y` strictly before month `m` (months `1..m-1`). -/
def days_before_month (y : Int) (m : Nat) : Nat :=
  (List.range m).foldl (fun acc k => if k == 0 then acc else acc + days_in_month y k) 0

/-- Days before January 1st of year `y` in the proleptic Gregorian calendar. -/
def days_before_year (y : Int) : Int :=
  365 * (y - 1) + (y - 1) / 4 - (y - 1) / 100 + (y - 1) / 400

/-- `date(y, m, d).toordinal()`. -/
def toOrd (y : Int) (m d : Nat) : Int :=
  days_before_year y + days_before_month y m + d

/-- Largest month `≤ hi` whose cumulative day count does not exceed `doy`. -/
def monthOfDoy (y : Int) (doy : Nat) : Nat → Nat
  | 0 => 1
  | n + 1 => if days_before_month y (n + 1) ≤ doy then n + 1 else monthOfDoy y doy n

/-- `date.fromordinal`, following CPython's `_ord2ymd` cycle decomposition.
Returns `(year, month, day)`. -/
def fromOrd (ord : Int) : Int × Nat × Nat :=
  let n0 := ord - 1
  let n400 := n0 / 146097
  let r400 := n0 % 146097
  let n100 := r400 / 36524
  let r100 := r400 % 36524
  let n4 := r100 / 1461
  let r4 := r100 % 1461
  let n1 := r4 / 365
  let doy := (r4 % 365).toNat
  let year := n400 * 400 + n100 * 100 + n4 * 4 + n1 + 1
  if n1 == 4 || n100 == 4 then (year - 1, 12, 31)
  else
    let m := monthOfDoy year doy 12
    (year, m, doy - days_before_month year m + 1)

/-- `date.weekday()`: 0 = Monday. Day 1 (0001-01-01) is a Monday. -/
def weekday (ord : Int) : Int := (ord - 1) % 7

/-! ## Decimal rendering (Python `%d` / `strftime`) -/

/-- Decimal digits, fuel-bounded so the recursion is structural (the fuel
`n + 1` always suffices since the argument shrinks by a factor of 10). -/
def decDigitsAux (fuel : Nat) (n : Nat) : List Char :=
  match fuel with
  | 0 => []
  | fuel + 1 =>
    if n < 10 then [Char.ofNat (48 + n)]
    else decDigitsAux fuel (n / 10) ++ [Char.ofNat (48 + n % 10)]

/-- Decimal digits of `n`, most significant first; never empty. -/
def decDigits (n : Nat) : List Char := decDigitsAux (n + 1) n

/-- Zero-padded decimal, as `%0wd`. -/
def padNum (w n : Nat) : List Char :=
  let s := decDigits n
  List.replicate (w - s.length) '0' ++ s

/-- Rendering of a possibly negative integer, as Python `f"{i}"`. -/
def decInt (i : Int) : List Char :=
  if i < 0 then '-' :: decDigits (-i).toNat else decDigits i.toNat

/-- `dt.strftime("%Y-%m-%d")` at ordinal `ord`, as a char list. -/
def fmtDateList (ord : Int) : List Char :=
  let p := fromOrd ord
  padNum 4 p.1.toNat ++ '-' :: padNum 2 p.2.1 ++ '-' :: padNum 2 p.2.2

/-- `dt.strftime("%Y-%m-%d")`. -/
def fmtDate (ord : Int) : String := String.mk (fmtDateList ord)

/-- `dt.strftime("%Y-%m-%d %H:%M:%S")`. -/
def fmtDateTime (ord : Int) (h mi s : Nat) : String :=
  String.mk (fmtDateList ord ++ ' ' :: padNum 2 h ++ ':' :: padNum 2 mi ++ ':' :: padNum 2 s)

/-- Exceptions that can escape the embedded code. -/
inductive PyErr where
  | valueError
  | indexError
  deriving DecidableEq, Repr

/-! ## Unicode digit classification (CPython `str.isdigit` / `int` / `\d`)

The source runs under CPython, whose `str.isdigit()` accepts every character
of Numeric_Type Decimal or Digit, whose `int()` accepts exactly the decimal
(Nd) characters of any script, and whose `re` module's `\d` also matches
exactly Nd.  The tables below are the Unicode 14.0.0 data of that runtime:
every Nd character sits in a 10-character run valued 0..9, and the remaining
`isdigit`-true characters (superscripts such as `²`, circled digits, ...)
make `int()` raise `ValueError`. -/

/-- Start codepoints of the 10-character decimal-digit (Nd) runs. -/
def ndStarts : List Nat :=
  [48, 1632, 1776, 1984, 2406, 2534, 2662, 2790, 2918, 3046, 3174, 3302,
   3430, 3558, 3664, 3792, 3872, 4160, 4240, 6112, 6160, 6470, 6608, 6784,
   6800, 6992, 7088, 7232, 7248, 42528, 43216, 43264, 43472, 43504, 43600,
   44016, 65296, 66720, 68912, 69734, 69872, 69942, 70096, 70384, 70736,
   70864, 71248, 71360, 71472, 71904, 72016, 72784, 73040, 73120, 92768,
   92864, 93008, 120782, 120792, 120802, 120812, 120822, 123200, 123632,
   125264, 130032]

/-- Decimal value of a Unicode decimal-digit (Nd) character, if it is one:
the characters `int()` accepts and `\d` matches. -/
def ndVal? (c : Char) : Option Nat :=
  match ndStarts.find? (fun s => s ≤ c.toNat && c.toNat < s + 10) with
  | some s => some (c.toNat - s)
  | none => none

/-- Membership in Nd (the regex `\d` class). -/
def isNdChar (c : Char) : Bool := (ndVal? c).isSome

/-- Decimal value of an Nd character (0 outside Nd; only applied inside). -/
def ndVal (c : Char) : Nat := (ndVal? c).getD 0

/-- `(start, length)` ranges of the `str.isdigit()`-true characters that are
NOT decimal digits (Numeric_Type Digit): `isdigit` accepts them, `int()`
raises on them. -/
def digitExtraRanges : List (Nat × Nat) :=
  [(178, 2), (185, 1), (4969, 9), (6618, 1), (8304, 1), (8308, 6),
   (8320, 10), (9312, 9), (9332, 9), (9352, 9), (9450, 1), (9461, 9),
   (9471, 1), (10102, 9), (10112, 9), (10122, 9), (68160, 4), (69216, 9),
   (69714, 9), (127232, 11)]

/-- CPython `str.isdigit()` on one character. -/
def pyCharIsDigit (c : Char) : Bool :=
  (ndVal? c).isSome ||
    digitExtraRanges.any (fun p => p.1 ≤ c.toNat && c.toNat < p.1 + p.2)

/-! ## The numeral converter `_cn_to_num` -/

/-- `FuzzyTimeParser.CN_NUMBERS`, in source (insertion) order.  `半` maps to
the non-integer value 1/2, hence the rational codomain. -/
def CN_NUMBERS : List (String × ℚ) :=
  [("零", 0), ("一", 1), ("二", 2), ("两", 2), ("三", 3), ("四", 4), ("五", 5),
   ("六", 6), ("七", 7), ("八", 8), ("九", 9), ("十", 10), ("十一", 11),
   ("十二", 12), ("半", 1/2)]

/-- `dict.get`: first binding of `k`, if any. -/
def dictGet (d : List (String × ℚ)) (k : String) : Option ℚ :=
  (d.find? (fun p => p.1 == k)).map (fun p => p.2)

/-- Python `str.split(sep)` for a single-character separator, over char
lists. -/
def splitOnChar (sep : Char) : List Char → List (List Char)
  | [] => [[]]
  | c :: rest =>
    if c == sep then [] :: splitOnChar sep rest
    else
      match splitOnChar sep rest with
      | [] => [[c]]
      | g :: gs => (c :: g) :: gs

/-- `CN_NUMBERS.get(c, 0)` for a single character key. -/
def charVal (c : Char) : ℚ := (dictGet CN_NUMBERS (String.mk [c])).getD 0

/-- Numeric value of an all-decimal-digit token, as Python `int` (decimal
digits of any script, e.g. `int("５5") = 55`). -/
def digitsToNat (cs : List Char) : Nat :=
  cs.foldl (fun a c => a * 10 + ndVal c) 0

/-- `FuzzyTimeParser._cn_to_num` in the source's rule order: (a) an
`isdigit()`-true token goes to `int(cn)`, which returns its decimal value
when every character is a decimal digit (Nd) and raises `ValueError`
otherwise (e.g. on `²`) — so the converter is NOT total; then exact table
entry, `十X`, `X十`, `X十Y`, and the default `1`, none of which can fail. -/
def cn_to_num (cn : String) : Except PyErr ℚ :=
  let cs := cn.data
  if cs != [] && cs.all pyCharIsDigit then
    if cs.all isNdChar then .ok ((digitsToNat cs : ℚ))
    else .error .valueError
  else
    .ok (match dictGet CN_NUMBERS cn with
    | some v => v
    | none =>
      if cs.length == 2 && cs.getD 0 ' ' == '十' then
        10 + charVal (cs.getD 1 ' ')
      else if cs.length == 2 && cs.getD 1 ' ' == '十' then
        charVal (cs.getD 0 ' ') * 10
      else if cs.contains '十' && cs.length == 3 then
        (dictGet CN_NUMBERS (String.mk ((splitOnChar '十' cs).getD 0 []))).getD 0 * 10 +
          (dictGet CN_NUMBERS (String.mk ((splitOnChar '十' cs).getD 1 []))).getD 0
      else 1)

/-- Integer extraction used where the source feeds `_cn_to_num` results into
day/week/month/hour arithmetic; every token matched by those regexes excludes
`半`, so the value is an integer and flooring is the identity there. -/
def qToZ (q : ℚ) : Int := q.floor

/-! ## Data model -/

/-- Python `Union[str, List[str]]`: the `value` field of `ParsedTime`. -/
inductive Value where
  | str (s : String)
  | list (xs : List String)
  deriving DecidableEq, Repr

/-- The `ParsedTime` pydantic model. -/
structure ParsedTime where
  value : Value
  is_range : Bool
  is_date_only : Bool
  original_expression : String
  confidence : ℚ
  deriving DecidableEq, Repr

/-- Per-call context: the cached `now` (only its date is ever consulted) as a
proleptic-Gregorian ordinal, and the injected `zhdate` collaborator.
`zh y m d` is `ZhDate(y, m, d).to_datetime()`'s date as an ordinal, or `none`
on any failure (library absent, unsupported year, internal exception). -/
structure Ctx where
  todayOrd : Int
  zh : Int → Nat → Nat → Option Int

/-! ## String utilities -/

/-- `(start, length)` codepoint ranges of `str.isspace()`-true characters
(the set `str.strip()` strips), per the runtime's Unicode data. -/
def pyWhitespaceRanges : List (Nat × Nat) :=
  [(9, 5), (28, 5), (133, 1), (160, 1), (5760, 1), (8192, 11), (8232, 2),
   (8239, 1), (8287, 1), (12288, 1)]

/-- Whitespace stripped by Python `str.strip()`. -/
def isPySpace (c : Char) : Bool :=
  pyWhitespaceRanges.any (fun p => p.1 ≤ c.toNat && c.toNat < p.1 + p.2)

/-- Python `str.strip()`. -/
def pyStrip (s : String) : String :=
  String.mk (((s.data.dropWhile isPySpace).reverse.dropWhile isPySpace).reverse)

/-- Substring containment over char lists (Python `needle in hay`). -/
def listHasInfix (needle : List Char) : List Char → Bool
  | [] => needle.isPrefixOf []
  | c :: t => needle.isPrefixOf (c :: t) || listHasInfix needle t

/-- Python `sub in hay`. -/
def strContainsSub (hay sub : String) : Bool := listHasInfix sub.data hay.data

/-- Python `hay.startswith(pre)`. -/
def startsWithL (hay pre : String) : Bool := pre.data.isPrefixOf hay.data

/-- One numeral token at the head of `cs` as in `(\d+|[class]+)`: a maximal
`\d` run (Unicode decimal digits, Nd) if the head is one, else a maximal run
over `cls`, else no match.  Returns the token and the remaining text. -/
def numTok (cls : List Char) (cs : List Char) : Option (List Char × List Char) :=
  match cs with
  | [] => none
  | c :: _ =>
    if isNdChar c then some (cs.span isNdChar)
    else if cls.contains c then some (cs.span cls.contains)
    else none

/-- `X?suf`: optionally consume `x`, then require `suf` as a prefix
(the regex idiom `个?星期前` etc.). -/
def optCharThen (x : Char) (suf : List Char) (cs : List Char) : Bool :=
  match cs with
  | d :: rest => if d == x then suf.isPrefixOf rest else suf.isPrefixOf cs
  | [] => suf.isPrefixOf cs

/-! ## Holiday tables -/

/-- `FuzzyTimeParser.SOLAR_HOLIDAYS`: name, (month, day, duration). -/
def SOLAR_HOLIDAYS : List (String × Nat × Nat × Nat) :=
  [("元旦", 1, 1, 1), ("情人节", 2, 14, 1), ("妇女节", 3, 8, 1),
   ("植树节", 3, 12, 1), ("愚人节", 4, 1, 1), ("劳动节", 5, 1, 5),
   ("五一", 5, 1, 5), ("儿童节", 6, 1, 1), ("建党节", 7, 1, 1),
   ("建军节", 8, 1, 1), ("教师节", 9, 10, 1), ("国庆", 10, 1, 7),
   ("国庆节", 10, 1, 7), ("双十一", 11, 11, 1), ("平安夜", 12, 24, 1),
   ("圣诞", 12, 25, 1), ("圣诞节", 12, 25, 1)]

/-- `FuzzyTimeParser.LUNAR_HOLIDAYS`: name, (lunar month, lunar day, duration). -/
def LUNAR_HOLIDAYS : List (String × Nat × Nat × Nat) :=
  [("春节", 1, 1, 7), ("过年", 1, 1, 7), ("大年初一", 1, 1, 1),
   ("除夕", 12, 30, 1), ("年三十", 12, 30, 1), ("元宵", 1, 15, 1),
   ("元宵节", 1, 15, 1), ("龙抬头", 2, 2, 1), ("端午", 5, 5, 3),
   ("端午节", 5, 5, 3), ("七夕", 7, 7, 1), ("七夕节", 7, 7, 1),
   ("中元", 7, 15, 1), ("中元节", 7, 15, 1), ("中秋", 8, 15, 1),
   ("中秋节", 8, 15, 1), ("重阳", 9, 9, 1), ("重阳节", 9, 9, 1),
   ("腊八", 12, 8, 1), ("腊八节", 12, 8, 1), ("小年", 12, 23, 1)]

/-- `FuzzyTimeParser.QINGMING_HOLIDAYS`. -/
def QINGMING_HOLIDAYS : List String := ["清明", "清明节"]

/-! ## Holiday sub-parser -/

/-- `FuzzyTimeParser._lunar_to_solar`: the `除夕` rule (lunar 12/29+) asks the
collaborator for the next lunar new year's day and subtracts one solar day;
otherwise it asks for the triple directly.  Failures surface as `none`. -/
def lunar_to_solar (ctx : Ctx) (year : Int) (lunar_month lunar_day : Nat) : Option Int :=
  if lunar_month == 12 && lunar_day ≥ 29 then (ctx.zh year 1 1).map (fun o => o - 1)
  else ctx.zh year lunar_month lunar_day

/-- `FuzzyTimeParser._create_holiday_result`. -/
def create_holiday_result (ord : Int) (duration : Nat) (expr : String) : ParsedTime :=
  if duration > 1 || strContainsSub expr "期间" then
    { value := .list [fmtDate ord, fmtDate (ord + duration - 1)], is_range := true,
      is_date_only := true, original_expression := expr, confidence := 0.95 }
  else
    { value := .str (fmtDate ord), is_range := false,
      is_date_only := true, original_expression := expr, confidence := 0.95 }

/-- The solar branch of `_parse_holiday`: first table entry contained in the
expression. -/
def holidaySolar (ctx : Ctx) (expr : String) : Option ParsedTime :=
  match SOLAR_HOLIDAYS.find? (fun h => strContainsSub expr h.1) with
  | some h =>
    some (create_holiday_result (toOrd (fromOrd ctx.todayOrd).1 h.2.1 h.2.2.1) h.2.2.2 expr)
  | none => none

/-- The lunar loop of `_parse_holiday`: an entry whose conversion fails is
skipped and the loop continues. -/
def holidayLunarLoop (ctx : Ctx) (expr : String) (year : Int) :
    List (String × Nat × Nat × Nat) → Option ParsedTime
  | [] => none
  | h :: rest =>
    if strContainsSub expr h.1 then
      match lunar_to_solar ctx year h.2.1 h.2.2.1 with
      | some ord => some (create_holiday_result ord h.2.2.2 expr)
      | none => holidayLunarLoop ctx expr year rest
    else holidayLunarLoop ctx expr year rest

/-- The lunar branch of `_parse_holiday`. -/
def holidayLunar (ctx : Ctx) (expr : String) : Option ParsedTime :=
  holidayLunarLoop ctx expr (fromOrd ctx.todayOrd).1 LUNAR_HOLIDAYS

/-- The Qingming branch of `_parse_holiday`: April 4 in leap years, April 5
otherwise; 3-day span with the `期间` marker. -/
def holidayQingming (ctx : Ctx) (expr : String) : Option ParsedTime :=
  if QINGMING_HOLIDAYS.any (fun q => strContainsSub expr q) then
    let year := (fromOrd ctx.todayOrd).1
    let qd := if is_leap_year year then 4 else 5
    let duration := if strContainsSub expr "期间" then 3 else 1
    some (create_holiday_result (toOrd year 4 qd) duration expr)
  else none

/-- `FuzzyTimeParser._parse_holiday`: solar, then lunar, then Qingming. -/
def parse_holiday (ctx : Ctx) (expr : String) : Option ParsedTime :=
  match holidaySolar ctx expr with
  | some r => some r
  | none =>
    match holidayLunar ctx expr with
    | some r => some r
    | none => holidayQingming ctx expr

/-! ## Relative-day sub-parser -/

/-- The `day_map` of `_parse_relative_day`, in source order. -/
def day_map : List (String × Int) :=
  [("今天", 0), ("今日", 0), ("昨天", -1), ("昨日", -1), ("前天", -2),
   ("前日", -2), ("大前天", -3), ("明天", 1), ("明日", 1), ("后天", 2),
   ("后日", 2), ("大后天", 3)]

/-- Named-table branch of `_parse_relative_day` (`expr == key or
expr.startswith(key)` collapses to the startswith test). -/
def relDayNamed (ctx : Ctx) (expr : String) : Option ParsedTime :=
  match day_map.find? (fun kv => startsWithL expr kv.1) with
  | some kv =>
    some { value := .str (fmtDate (ctx.todayOrd + kv.2)), is_range := false,
           is_date_only := true, original_expression := expr, confidence := 1 }
  | none => none

/-- Character class `[一二三四五六七八九十]` of the day/month/hour numerals. -/
def cnDay : List Char := ['一', '二', '三', '四', '五', '六', '七', '八', '九', '十']

/-- Character class `[一二两三四五六七八九十]` of the week numerals. -/
def cnWeek : List Char := ['一', '二', '两', '三', '四', '五', '六', '七', '八', '九', '十']

/-- The four `X天前/后, X日前/后` regexes: required suffix and direction. -/
def relDayPats : List (List Char × Int) :=
  [("天前".data, -1), ("天后".data, 1), ("日前".data, -1), ("日后".data, 1)]

/-- Pattern loop of `_parse_relative_day`.  The `_cn_to_num` call can raise
(on a `\d+` token this never fires, since `\d` tokens are all-Nd and `int()`
accepts them, but the exception channel is propagated as in the source).
An overflowing `now + timedelta(...)` for a huge offset would additionally
raise `OverflowError` in Python; date arithmetic is modeled on unbounded
ordinals, so that extreme-range error path (year outside 1..9999) is out of
model scope — no claim depends on it. -/
def relDayPatLoop (ctx : Ctx) (expr : String) :
    List (List Char × Int) → Except PyErr (Option ParsedTime)
  | [] => .ok none
  | p :: rest =>
    match numTok cnDay expr.data with
    | some tr =>
      if p.1.isPrefixOf tr.2 then
        match cn_to_num (String.mk tr.1) with
        | .error e => .error e
        | .ok q =>
          .ok (some { value := .str (fmtDate (ctx.todayOrd + qToZ q * p.2)),
                      is_range := false, is_date_only := true,
                      original_expression := expr, confidence := 0.95 })
      else relDayPatLoop ctx expr rest
    | none => relDayPatLoop ctx expr rest

/-- `FuzzyTimeParser._parse_relative_day`. -/
def parse_relative_day (ctx : Ctx) (expr : String) : Except PyErr (Option ParsedTime) :=
  match relDayNamed ctx expr with
  | some r => .ok (some r)
  | none => relDayPatLoop ctx expr relDayPats

/-! ## Relative-week sub-parser -/

/-- The `week_map` of `_parse_relative_week`, in source order. -/
def week_map : List (String × Int) :=
  [("本周", 0), ("这周", 0), ("上周", -1), ("上一周", -1), ("上上周", -2),
   ("下周", 1), ("下一周", 1), ("下下周", 2)]

/-- `[Monday, Sunday]` range result for a week `offset` weeks away. -/
def weekResult (ctx : Ctx) (expr : String) (offset : Int) (conf : ℚ) : ParsedTime :=
  let start := ctx.todayOrd - weekday ctx.todayOrd + 7 * offset
  { value := .list [fmtDate start, fmtDate (start + 6)], is_range := true,
    is_date_only := true, original_expression := expr, confidence := conf }

/-- Named-table branch of `_parse_relative_week`. -/
def relWeekNamed (ctx : Ctx) (expr : String) : Option ParsedTime :=
  match week_map.find? (fun kv => startsWithL expr kv.1) with
  | some kv => some (weekResult ctx expr kv.2 0.95)
  | none => none

/-- The four `X周前/后, X个?星期前/后` regexes: suffix test and direction. -/
def relWeekPats : List ((List Char → Bool) × Int) :=
  [(fun cs => "周前".data.isPrefixOf cs, -1),
   (fun cs => "周后".data.isPrefixOf cs, 1),
   (fun cs => optCharThen '个' "星期前".data cs, -1),
   (fun cs => optCharThen '个' "星期后".data cs, 1)]

/-- Pattern loop of `_parse_relative_week`; error channel as in
`relDayPatLoop` (the `timedelta(weeks=...)` overflow of the source at the
extreme date range is likewise out of model scope). -/
def relWeekPatLoop (ctx : Ctx) (expr : String) :
    List ((List Char → Bool) × Int) → Except PyErr (Option ParsedTime)
  | [] => .ok none
  | p :: rest =>
    match numTok cnWeek expr.data with
    | some tr =>
      if p.1 tr.2 then
        match cn_to_num (String.mk tr.1) with
        | .error e => .error e
        | .ok q => .ok (some (weekResult ctx expr (qToZ q * p.2) 0.9))
      else relWeekPatLoop ctx expr rest
    | none => relWeekPatLoop ctx expr rest

/-- `FuzzyTimeParser._parse_relative_week`. -/
def parse_relative_week (ctx : Ctx) (expr : String) : Except PyErr (Option ParsedTime) :=
  match relWeekNamed ctx expr with
  | some r => .ok (some r)
  | none => relWeekPatLoop ctx expr relWeekPats

/-! ## Relative-month sub-parser -/

/-- The `month_map` of `_parse_relative_month`, in source order. -/
def month_map : List (String × Int) :=
  [("本月", 0), ("这个月", 0), ("上个月", -1), ("上月", -1), ("下个月", 1), ("下月", 1)]

/-- Closed form of the two `while` loops normalising `(year, month)`:
month below 1 borrows from the previous year, above 12 carries over. -/
def normYM (y m : Int) : Int × Int := (y + (m - 1).ediv 12, (m - 1).emod 12 + 1)

/-- `[first day, last day]` range result for the month `offset` months away
(`f"{year}-{month:02d}-01"` / `f"{year}-{month:02d}-{last_day:02d}"`). -/
def monthResult (ctx : Ctx) (expr : String) (offset : Int) (conf : ℚ) : ParsedTime :=
  let p := fromOrd ctx.todayOrd
  let ym := normYM p.1 (p.2.1 + offset)
  let last := days_in_month ym.1 ym.2.toNat
  { value := .list
      [String.mk (decInt ym.1 ++ '-' :: padNum 2 ym.2.toNat ++ ['-', '0', '1']),
       String.mk (decInt ym.1 ++ '-' :: padNum 2 ym.2.toNat ++ '-' :: padNum 2 last)],
    is_range := true, is_date_only := true, original_expression := expr, confidence := conf }

/-- Named-table branch of `_parse_relative_month`. -/
def relMonthNamed (ctx : Ctx) (expr : String) : Option ParsedTime :=
  match month_map.find? (fun kv => startsWithL expr kv.1) with
  | some kv => some (monthResult ctx expr kv.2 0.95)
  | none => none

/-- The two `X个?月前/后` regexes: suffix test and direction. -/
def relMonthPats : List ((List Char → Bool) × Int) :=
  [(fun cs => optCharThen '个' "月前".data cs, -1),
   (fun cs => optCharThen '个' "月后".data cs, 1)]

/-- Pattern loop of `_parse_relative_month`; error channel as in
`relDayPatLoop` (the `monthrange` `ValueError` the source hits when a huge
offset pushes the year outside 1..9999 is likewise out of model scope —
`days_in_month` is total). -/
def relMonthPatLoop (ctx : Ctx) (expr : String) :
    List ((List Char → Bool) × Int) → Except PyErr (Option ParsedTime)
  | [] => .ok none
  | p :: rest =>
    match numTok cnDay expr.data with
    | some tr =>
      if p.1 tr.2 then
        match cn_to_num (String.mk tr.1) with
        | .error e => .error e
        | .ok q => .ok (some (monthResult ctx expr (qToZ q * p.2) 0.85))
      else relMonthPatLoop ctx expr rest
    | none => relMonthPatLoop ctx expr rest

/-- `FuzzyTimeParser._parse_relative_month`. -/
def parse_relative_month (ctx : Ctx) (expr : String) : Except PyErr (Option ParsedTime) :=
  match relMonthNamed ctx expr with
  | some r => .ok (some r)
  | none => relMonthPatLoop ctx expr relMonthPats

/-! ## Time-of-day sub-parser -/

/-- The period alternatives, in regex order. -/
def periodStrs : List String := ["凌晨", "早上", "上午", "中午", "下午", "晚上", "深夜"]

/-- A match of `(period)?(hour)点((minute)分?)?`. -/
structure TodMatch where
  period : Option String
  hourTok : List Char
  minTok : Option (List Char)
  deriving DecidableEq, Repr

/-- `(\d+|[一二三四五六七八九十]+)点(?:(\d+|[...]+)分?)?` at the current
position: hour token, `点`, optional minute token (`分` itself optional). -/
def todCore (cs : List Char) : Option (List Char × Option (List Char)) :=
  match numTok cnDay cs with
  | some tr =>
    match tr.2 with
    | c :: rest =>
      if c == '点' then
        match numTok cnDay rest with
        | some mr => some (tr.1, some mr.1)
        | none => some (tr.1, none)
      else none
    | [] => none
  | none => none

/-- Attempt the optional period group at this position: each alternative in
order, falling back to no period (regex backtracking). -/
def todTryPeriods (cs : List Char) : List String → Option TodMatch
  | [] => (todCore cs).map (fun q => { period := none, hourTok := q.1, minTok := q.2 })
  | p :: rest =>
    if p.data.isPrefixOf cs then
      match todCore (cs.drop p.data.length) with
      | some q => some { period := some p, hourTok := q.1, minTok := q.2 }
      | none => todTryPeriods cs rest
    else todTryPeriods cs rest

/-- `re.search`: leftmost position where the pattern matches. -/
def todSearch : List Char → Option TodMatch
  | [] => none
  | c :: rest =>
    match todTryPeriods (c :: rest) periodStrs with
    | some m => some m
    | none => todSearch rest

/-- Resolved `(hour, minute)` of a match: the `_cn_to_num` conversions (whose
exception channel propagates, though a matched token is never `isdigit`-true
without being all-Nd), then the period adjustment (afternoon/evening add 12
below noon; pre-dawn maps 12 to 0). -/
def todResolve (m : TodMatch) : Except PyErr (Int × Int) :=
  match cn_to_num (String.mk m.hourTok) with
  | .error e => .error e
  | .ok hq =>
    match (match m.minTok with
           | some t => cn_to_num (String.mk t)
           | none => .ok 0) with
    | .error e => .error e
    | .ok mq =>
      let hour := qToZ hq
      let hour' := match m.period with
        | some p =>
          if (p == "下午" || p == "晚上") && hour < 12 then hour + 12
          else if p == "凌晨" && hour == 12 then 0 else hour
        | none => hour
      .ok (hour', qToZ mq)

/-- `FuzzyTimeParser._parse_time_of_day`.  The `datetime(...)` constructor
call is NOT guarded by a `try` in the source, so an out-of-range hour or
minute raises `ValueError` out of the sub-parser. -/
def parse_time_of_day (ctx : Ctx) (expr : String) : Except PyErr (Option ParsedTime) :=
  match todSearch expr.data with
  | none => .ok none
  | some m =>
    match todResolve m with
    | .error e => .error e
    | .ok hm =>
      if 0 ≤ hm.1 && hm.1 ≤ 23 && 0 ≤ hm.2 && hm.2 ≤ 59 then
        .ok (some { value := .str (fmtDateTime ctx.todayOrd hm.1.toNat hm.2.toNat 0),
                    is_range := false, is_date_only := false,
                    original_expression := expr, confidence := 0.9 })
      else .error .valueError

/-! ## Specific-date sub-parser -/

/-- `(\d{1,2})` followed by a required literal satisfying `f`: two digits
(`\d` = Nd) are preferred, backtracking to one; the value is `int(group)`. -/
def d2follow (f : Char → Bool) (cs : List Char) : Option (Nat × List Char) :=
  match cs with
  | a :: b :: c :: rest =>
    if isNdChar a && isNdChar b && f c then some (ndVal a * 10 + ndVal b, rest)
    else if isNdChar a && f b then some (ndVal a, c :: rest)
    else none
  | [a, b] => if isNdChar a && f b then some (ndVal a, []) else none
  | _ => none

/-- `(\d{1,2})` with nothing required after it (the day group, whose `[日号]?`
tail is optional): greedy two digits, else one. -/
def d2free (cs : List Char) : Option Nat :=
  match cs with
  | a :: b :: _ =>
    if isNdChar a && isNdChar b then some (ndVal a * 10 + ndVal b)
    else if isNdChar a then some (ndVal a)
    else none
  | [a] => if isNdChar a then some (ndVal a) else none
  | [] => none

/-- `(\d{4})年(\d{1,2})月(\d{1,2})[日号]?` anchored at the start. -/
def datePat1 (cs : List Char) : Option (Nat × Nat × Nat) :=
  match cs with
  | a :: b :: c :: d :: e :: rest =>
    if isNdChar a && isNdChar b && isNdChar c && isNdChar d && e == '年' then
      match d2follow (fun x => x == '月') rest with
      | some mr =>
        match d2free mr.2 with
        | some dd => some (ndVal a * 1000 + ndVal b * 100 + ndVal c * 10 + ndVal d, mr.1, dd)
        | none => none
      | none => none
    else none
  | _ => none

/-- `(\d{1,2})月(\d{1,2})[日号]?` anchored at the start. -/
def datePat2 (cs : List Char) : Option (Nat × Nat) :=
  match d2follow (fun x => x == '月') cs with
  | some mr =>
    match d2free mr.2 with
    | some dd => some (mr.1, dd)
    | none => none
  | none => none

/-- `(\d{1,2})[日号]` anchored at the start. -/
def datePat3 (cs : List Char) : Option Nat :=
  (d2follow (fun x => x == '日' || x == '号') cs).map (fun r => r.1)

/-- Validity domain of Python's `datetime(year, month, day)` constructor. -/
def dateOk (y : Int) (m d : Nat) : Bool :=
  1 ≤ y && y ≤ 9999 && 1 ≤ m && m ≤ 12 && 1 ≤ d && d ≤ days_in_month y m

/-- Build the specific-date result if the triple is a real calendar date; the
source's `except ValueError: continue` makes an invalid triple a non-match. -/
def mkSpecificDate (y : Int) (m d : Nat) (expr : String) : Option ParsedTime :=
  if dateOk y m d then
    some { value := .str (fmtDate (toOrd y m d)), is_range := false,
           is_date_only := true, original_expression := expr, confidence := 1 }
  else none

/-- Third alternative of `_parse_specific_date`: `(\d{1,2})[日号]` with the
current year and month. -/
def specificStep3 (ctx : Ctx) (expr : String) : Option ParsedTime :=
  match datePat3 expr.data with
  | some d => mkSpecificDate (fromOrd ctx.todayOrd).1 (fromOrd ctx.todayOrd).2.1 d expr
  | none => none

/-- Second alternative of `_parse_specific_date`: `(\d{1,2})月(\d{1,2})[日号]?`
with the current year, falling through to the third on no-match or invalid
date. -/
def specificStep2 (ctx : Ctx) (expr : String) : Option ParsedTime :=
  match datePat2 expr.data with
  | some md =>
    match mkSpecificDate (fromOrd ctx.todayOrd).1 md.1 md.2 expr with
    | some r => some r
    | none => specificStep3 ctx expr
  | none => specificStep3 ctx expr

/-- `FuzzyTimeParser._parse_specific_date`: the three patterns in priority
order, each falling through on no-match or on an invalid calendar date. -/
def parse_specific_date (ctx : Ctx) (expr : String) : Option ParsedTime :=
  match datePat1 expr.data with
  | some ymd =>
    match mkSpecificDate (ymd.1 : Int) ymd.2.1 ymd.2.2 expr with
    | some r => some r
    | none => specificStep2 ctx expr
  | none => specificStep2 ctx expr

/-! ## Weekday sub-parser -/

/-- `FuzzyTimeParser.WEEKDAYS` (Monday-start indices). -/
def WEEKDAYS : List (Char × Nat) :=
  [('一', 0), ('二', 1), ('三', 2), ('四', 3), ('五', 4), ('六', 5), ('日', 6), ('天', 6)]

/-- Alternatives of `(上上?|下下?|这)?` in regex attempt order, ending with
the empty (absent) prefix. -/
def wdPrefixes : List (Option String) :=
  [some "上上", some "上", some "下下", some "下", some "这", none]

/-- `(?:周|星期)` followed by one weekday character. -/
def wdAfterKey (cs : List Char) : Option Char :=
  match cs with
  | c :: rest =>
    if c == '周' then
      match rest with
      | w :: _ => if (WEEKDAYS.find? (fun p => p.1 == w)).isSome then some w else none
      | [] => none
    else if c == '星' then
      match rest with
      | c2 :: w :: _ =>
        if c2 == '期' && (WEEKDAYS.find? (fun p => p.1 == w)).isSome then some w else none
      | _ => none
    else none
  | [] => none

/-- Try each prefix alternative, with regex backtracking into the next
alternative when the remainder fails. -/
def wdTry (cs : List Char) : List (Option String) → Option (Option String × Char)
  | [] => none
  | some s :: rest =>
    if s.data.isPrefixOf cs then
      match wdAfterKey (cs.drop s.data.length) with
      | some w => some (some s, w)
      | none => wdTry cs rest
    else wdTry cs rest
  | none :: _ => (wdAfterKey cs).map (fun w => ((none : Option String), w))

/-- `FuzzyTimeParser._parse_weekday`. -/
def parse_weekday (ctx : Ctx) (expr : String) : Option ParsedTime :=
  match wdTry expr.data wdPrefixes with
  | some pw =>
    let pfx := pw.1.getD "这"
    let wd : Int := ((WEEKDAYS.find? (fun p => p.1 == pw.2)).map (fun p => p.2)).getD 0
    let wo : Int :=
      if pfx == "上" then -1 else if pfx == "上上" then -2
      else if pfx == "下" then 1 else if pfx == "下下" then 2 else 0
    let target := ctx.todayOrd + (wd - weekday ctx.todayOrd + wo * 7)
    some { value := .str (fmtDate target), is_range := false,
           is_date_only := true, original_expression := expr, confidence := 0.95 }
  | none => none

/-! ## Range composer -/

/-- The five separator regexes of `_parse_range`, in source order:
`(.+?)到(.+)`, `(.+?)至(.+)`, `(.+?)-(.+)`, `(.+?)~(.+)`, `从(.+?)到(.+)`. -/
inductive RangePat where
  | plain (sep : Char)
  | fromTo
  deriving DecidableEq, Repr

/-- The `range_patterns` list. -/
def range_patterns : List RangePat :=
  [.plain '到', .plain '至', .plain '-', .plain '~', .fromTo]

/-- `re.match(r"(.+?)sep(.+)")`: the lazy first group takes the shortest
nonempty run of non-newline characters before an occurrence of `sep` that is
itself followed by at least one non-newline character; the greedy second group
then takes the maximal non-newline run.  `pre` accumulates the first group. -/
def rangeSplitAux (sep : Char) : List Char → List Char → Option (List Char × List Char)
  | _, [] => none
  | pre, c :: rest =>
    if c == sep && pre != [] then
      let g2 := rest.takeWhile (fun x => x != '\n')
      if g2 != [] then some (pre, g2) else rangeSplitAux sep (pre ++ [c]) rest
    else if c == '\n' then none
    else rangeSplitAux sep (pre ++ [c]) rest

/-- Split an expression by one range pattern. -/
def rangeSplit : RangePat → List Char → Option (List Char × List Char)
  | .plain sep, cs => rangeSplitAux sep [] cs
  | .fromTo, cs =>
    match cs with
    | c :: rest => if c == '从' then rangeSplitAux '到' [] rest else none
    | [] => none

/-- The sub-parser order of `_parse_single` (weekday LAST here, unlike the
top-level cascade). -/
def parse_single_raw (ctx : Ctx) (expr : String) : Except PyErr (Option ParsedTime) :=
  match parse_holiday ctx expr with
  | some r => .ok (some r)
  | none =>
  match parse_relative_day ctx expr with
  | .error e => .error e
  | .ok (some r) => .ok (some r)
  | .ok none =>
  match parse_relative_week ctx expr with
  | .error e => .error e
  | .ok (some r) => .ok (some r)
  | .ok none =>
  match parse_relative_month ctx expr with
  | .error e => .error e
  | .ok (some r) => .ok (some r)
  | .ok none =>
  match parse_time_of_day ctx expr with
  | .error e => .error e
  | .ok (some r) => .ok (some r)
  | .ok none =>
  match parse_specific_date ctx expr with
  | some r => .ok (some r)
  | none =>
  match parse_weekday ctx expr with
  | some r => .ok (some r)
  | none => .ok none

/-- `result.value if not isinstance(result.value, list) else result.value[0]`;
indexing an empty list would raise `IndexError`. -/
def firstVal : Value → Except PyErr String
  | .str s => .ok s
  | .list [] => .error .indexError
  | .list (x :: _) => .ok x

/-- `FuzzyTimeParser._parse_single`: reduce a match to
`(display value, is_date_only, confidence)`. -/
def parse_single (ctx : Ctx) (expr : String) : Except PyErr (Option (String × Bool × ℚ)) :=
  match parse_single_raw ctx expr with
  | .error e => .error e
  | .ok none => .ok none
  | .ok (some r) =>
    match firstVal r.value with
    | .error e => .error e
    | .ok v => .ok (some (v, r.is_date_only, r.confidence))

/-- Pattern loop of `_parse_range`: a pattern whose halves do not both parse
falls through to the next pattern; exceptions from a half propagate. -/
def rangeLoop (ctx : Ctx) (expr : String) : List RangePat → Except PyErr (Option ParsedTime)
  | [] => .ok none
  | p :: ps =>
    match rangeSplit p expr.data with
    | none => rangeLoop ctx expr ps
    | some g =>
      match parse_single ctx (pyStrip (String.mk g.1)) with
      | .error e => .error e
      | .ok sres =>
      match parse_single ctx (pyStrip (String.mk g.2)) with
      | .error e => .error e
      | .ok eres =>
      match sres, eres with
      | some s, some e =>
        .ok (some { value := .list [s.1, e.1], is_range := true,
                    is_date_only := s.2.1 && e.2.1, original_expression := expr,
                    confidence := min s.2.2 e.2.2 })
      | _, _ => rangeLoop ctx expr ps

/-- `FuzzyTimeParser._parse_range`. -/
def parse_range (ctx : Ctx) (expr : String) : Except PyErr (Option ParsedTime) :=
  rangeLoop ctx expr range_patterns

/-! ## Dispatch cascade -/

/-- The fallback `ParsedTime` of `parse`: today's date, point, date-only,
confidence 0.3. -/
def fallbackResult (ctx : Ctx) (expr : String) : ParsedTime :=
  { value := .str (fmtDate ctx.todayOrd), is_range := false, is_date_only := true,
    original_expression := expr, confidence := 0.3 }

/-- `FuzzyTimeParser.parse`: strip the input (the source rebinds `expression`
to its stripped form, written `pyStrip expression` below), then try
range → holiday → relative-day → weekday → relative-week → relative-month →
time-of-day → specific-date, returning the first match, else the fallback. -/
def parse (ctx : Ctx) (expression : String) : Except PyErr ParsedTime :=
  match parse_range ctx (pyStrip expression) with
  | .error e => .error e
  | .ok (some r) => .ok r
  | .ok none =>
  match parse_holiday ctx (pyStrip expression) with
  | some r => .ok r
  | none =>
  match parse_relative_day ctx (pyStrip expression) with
  | .error e => .error e
  | .ok (some r) => .ok r
  | .ok none =>
  match parse_weekday ctx (pyStrip expression) with
  | some r => .ok r
  | none =>
  match parse_relative_week ctx (pyStrip expression) with
  | .error e => .error e
  | .ok (some r) => .ok r
  | .ok none =>
  match parse_relative_month ctx (pyStrip expression) with
  | .error e => .error e
  | .ok (some r) => .ok r
  | .ok none =>
  match parse_time_of_day ctx (pyStrip expression) with
  | .error e => .error e
  | .ok (some r) => .ok r
  | .ok none =>
  match parse_specific_date ctx (pyStrip expression) with
  | some r => .ok r
  | none => .ok (fallbackResult ctx (pyStrip expression))

/-- A concrete reference context: now = 2024-01-15 (a Monday, ordinal 738900),
with the lunar collaborator unavailable. -/
def ctx0 : Ctx := { todayOrd := 738900, zh := fun _ _ _ => none }

/-- Well-formedness of one sub-parser result: it records the expression it was
given, and its `value` is a nonempty string exactly when `is_range` is false,
a pair of nonempty strings exactly when `is_range` is true. -/
def ResultOK (e : String) (r : ParsedTime) : Prop :=
  r.original_expression = e ∧
  ((r.is_range = false ∧ ∃ s, r.value = .str s ∧ s ≠ "") ∨
   (r.is_range = true ∧ ∃ a b, r.value = .list [a, b] ∧ a ≠ "" ∧ b ≠ ""))

/-! # Theorems -/

theorem decDigits_ne_nil (n : Nat) : decDigits n ≠ [] := by
  rw [decDigits, decDigitsAux]
  split
  · simp
  · simp

theorem mk_ne_empty {l : List Char} (h : l ≠ []) : String.mk l ≠ "" := by
  intro he
  exact h (congrArg String.data he)

theorem fmtDate_ne_empty (o : Int) : fmtDate o ≠ "" := by
  apply mk_ne_empty
  simp [fmtDateList, List.append_eq_nil]

theorem fmtDateTime_ne_empty (o : Int) (h mi s : Nat) : fmtDateTime o h mi s ≠ "" := by
  apply mk_ne_empty
  simp [List.append_eq_nil]

theorem create_holiday_ok (o : Int) (d : Nat) (e : String) :
    ResultOK e (create_holiday_result o d e) ∧
      (create_holiday_result o d e).confidence = 0.95 := by
  unfold create_holiday_result ResultOK
  split
  · exact ⟨⟨rfl, .inr ⟨rfl, _, _, rfl, fmtDate_ne_empty _, fmtDate_ne_empty _⟩⟩, rfl⟩
  · exact ⟨⟨rfl, .inl ⟨rfl, _, rfl, fmtDate_ne_empty _⟩⟩, rfl⟩

theorem holidaySolar_ok (ctx : Ctx) (e : String) (r : ParsedTime)
    (h : holidaySolar ctx e = some r) : ResultOK e r ∧ r.confidence = 0.95 := by
  unfold holidaySolar at h
  split at h
  · obtain rfl := Option.some.inj h
    exact create_holiday_ok _ _ _
  · exact Option.noConfusion h

theorem holidayLunarLoop_ok (ctx : Ctx) (e : String) (y : Int)
    (l : List (String × Nat × Nat × Nat)) (r : ParsedTime)
    (h : holidayLunarLoop ctx e y l = some r) : ResultOK e r ∧ r.confidence = 0.95 := by
  induction l with
  | nil => exact Option.noConfusion h
  | cons hd tl ih =>
    rw [holidayLunarLoop] at h
    split at h
    · split at h
      · obtain rfl := Option.some.inj h
        exact create_holiday_ok _ _ _
      · exact ih h
    · exact ih h

theorem holidayQingming_ok (ctx : Ctx) (e : String) (r : ParsedTime)
    (h : holidayQingming ctx e = some r) : ResultOK e r ∧ r.confidence = 0.95 := by
  unfold holidayQingming at h
  split at h
  · obtain rfl := Option.some.inj h
    exact create_holiday_ok _ _ _
  · exact Option.noConfusion h

theorem parse_holiday_ok (ctx : Ctx) (e : String) (r : ParsedTime)
    (h : parse_holiday ctx e = some r) : ResultOK e r ∧ r.confidence = 0.95 := by
  unfold parse_holiday at h
  split at h
  · rename_i r' heq
    obtain rfl := Option.some.inj h
    exact holidaySolar_ok ctx e _ heq
  · split at h
    · rename_i r' heq
      obtain rfl := Option.some.inj h
      have heq' : holidayLunarLoop ctx e (fromOrd ctx.todayOrd).1 LUNAR_HOLIDAYS = some r' := heq
      exact holidayLunarLoop_ok ctx e _ _ _ heq'
    · exact holidayQingming_ok ctx e r h

theorem relDayNamed_ok (ctx : Ctx) (e : String) (r : ParsedTime)
    (h : relDayNamed ctx e = some r) : ResultOK e r ∧ r.confidence = 1 := by
  unfold relDayNamed at h
  split at h
  · obtain rfl := Option.some.inj h
    exact ⟨⟨rfl, .inl ⟨rfl, _, rfl, fmtDate_ne_empty _⟩⟩, rfl⟩
  · exact Option.noConfusion h

theorem relDayPatLoop_ok (ctx : Ctx) (e : String) (l : List (List Char × Int))
    (r : ParsedTime) (h : relDayPatLoop ctx e l = .ok (some r)) :
    ResultOK e r ∧ r.confidence = 0.95 := by
  induction l with
  | nil => exact Option.noConfusion (Except.ok.inj h)
  | cons hd tl ih =>
    rw [relDayPatLoop] at h
    split at h
    · split at h
      · split at h
        · exact Except.noConfusion h
        · obtain rfl := Option.some.inj (Except.ok.inj h)
          exact ⟨⟨rfl, .inl ⟨rfl, _, rfl, fmtDate_ne_empty _⟩⟩, rfl⟩
      · exact ih h
    · exact ih h

theorem parse_relative_day_ok (ctx : Ctx) (e : String) (r : ParsedTime)
    (h : parse_relative_day ctx e = .ok (some r)) :
    ResultOK e r ∧ (r.confidence = 1 ∨ r.confidence = 0.95) := by
  unfold parse_relative_day at h
  split at h
  · rename_i r' heq
    obtain rfl := Option.some.inj (Except.ok.inj h)
    have := relDayNamed_ok ctx e _ heq
    exact ⟨this.1, .inl this.2⟩
  · have := relDayPatLoop_ok ctx e _ r h
    exact ⟨this.1, .inr this.2⟩

theorem weekResult_ok (ctx : Ctx) (e : String) (off : Int) (c : ℚ) :
    ResultOK e (weekResult ctx e off c) ∧ (weekResult ctx e off c).confidence = c := by
  exact ⟨⟨rfl, .inr ⟨rfl, _, _, rfl, fmtDate_ne_empty _, fmtDate_ne_empty _⟩⟩, rfl⟩

theorem relWeekNamed_ok (ctx : Ctx) (e : String) (r : ParsedTime)
    (h : relWeekNamed ctx e = some r) : ResultOK e r ∧ r.confidence = 0.95 := by
  unfold relWeekNamed at h
  split at h
  · obtain rfl := Option.some.inj h
    exact weekResult_ok ..
  · exact Option.noConfusion h

theorem relWeekPatLoop_ok (ctx : Ctx) (e : String) (l : List ((List Char → Bool) × Int))
    (r : ParsedTime) (h : relWeekPatLoop ctx e l = .ok (some r)) :
    ResultOK e r ∧ r.confidence = 0.9 := by
  induction l with
  | nil => exact Option.noConfusion (Except.ok.inj h)
  | cons hd tl ih =>
    rw [relWeekPatLoop] at h
    split at h
    · split at h
      · split at h
        · exact Except.noConfusion h
        · obtain rfl := Option.some.inj (Except.ok.inj h)
          exact weekResult_ok ..
      · exact ih h
    · exact ih h

theorem parse_relative_week_ok (ctx : Ctx) (e : String) (r : ParsedTime)
    (h : parse_relative_week ctx e = .ok (some r)) :
    ResultOK e r ∧ (r.confidence = 0.95 ∨ r.confidence = 0.9) := by
  unfold parse_relative_week at h
  split at h
  · rename_i r' heq
    obtain rfl := Option.some.inj (Except.ok.inj h)
    have := relWeekNamed_ok ctx e _ heq
    exact ⟨this.1, .inl this.2⟩
  · have := relWeekPatLoop_ok ctx e _ r h
    exact ⟨this.1, .inr this.2⟩

theorem monthResult_ok (ctx : Ctx) (e : String) (off : Int) (c : ℚ) :
    ResultOK e (monthResult ctx e off c) ∧ (monthResult ctx e off c).confidence = c := by
  refine ⟨⟨rfl, .inr ⟨rfl, _, _, rfl, mk_ne_empty ?_, mk_ne_empty ?_⟩⟩, rfl⟩ <;>
    simp [List.append_eq_nil]

theorem relMonthNamed_ok (ctx : Ctx) (e : String) (r : ParsedTime)
    (h : relMonthNamed ctx e = some r) : ResultOK e r ∧ r.confidence = 0.95 := by
  unfold relMonthNamed at h
  split at h
  · obtain rfl := Option.some.inj h
    exact monthResult_ok ..
  · exact Option.noConfusion h

theorem relMonthPatLoop_ok (ctx : Ctx) (e : String) (l : List ((List Char → Bool) × Int))
    (r : ParsedTime) (h : relMonthPatLoop ctx e l = .ok (some r)) :
    ResultOK e r ∧ r.confidence = 0.85 := by
  induction l with
  | nil => exact Option.noConfusion (Except.ok.inj h)
  | cons hd tl ih =>
    rw [relMonthPatLoop] at h
    split at h
    · split at h
      · split at h
        · exact Except.noConfusion h
        · obtain rfl := Option.some.inj (Except.ok.inj h)
          exact monthResult_ok ..
      · exact ih h
    · exact ih h

theorem parse_relative_month_ok (ctx : Ctx) (e : String) (r : ParsedTime)
    (h : parse_relative_month ctx e = .ok (some r)) :
    ResultOK e r ∧ (r.confidence = 0.95 ∨ r.confidence = 0.85) := by
  unfold parse_relative_month at h
  split at h
  · rename_i r' heq
    obtain rfl := Option.some.inj (Except.ok.inj h)
    have := relMonthNamed_ok ctx e _ heq
    exact ⟨this.1, .inl this.2⟩
  · have := relMonthPatLoop_ok ctx e _ r h
    exact ⟨this.1, .inr this.2⟩

theorem parse_time_of_day_ok (ctx : Ctx) (e : String) (r : ParsedTime)
    (h : parse_time_of_day ctx e = .ok (some r)) :
    ResultOK e r ∧ r.confidence = 0.9 ∧ r.is_date_only = false := by
  unfold parse_time_of_day at h
  split at h
  · exact Option.noConfusion (Except.ok.inj h)
  · split at h
    · exact Except.noConfusion h
    · split at h
      · obtain rfl := Option.some.inj (Except.ok.inj h)
        exact ⟨⟨rfl, .inl ⟨rfl, _, rfl, fmtDateTime_ne_empty _ _ _ _⟩⟩, rfl, rfl⟩
      · exact Except.noConfusion h

theorem mkSpecificDate_ok (y : Int) (m d : Nat) (e : String) (r : ParsedTime)
    (h : mkSpecificDate y m d e = some r) : ResultOK e r ∧ r.confidence = 1 := by
  unfold mkSpecificDate at h
  split at h
  · obtain rfl := Option.some.inj h
    exact ⟨⟨rfl, .inl ⟨rfl, _, rfl, fmtDate_ne_empty _⟩⟩, rfl⟩
  · exact Option.noConfusion h

theorem specificStep3_ok (ctx : Ctx) (e : String) (r : ParsedTime)
    (h : specificStep3 ctx e = some r) : ResultOK e r ∧ r.confidence = 1 := by
  unfold specificStep3 at h
  split at h
  · exact mkSpecificDate_ok _ _ _ _ r h
  · exact Option.noConfusion h

theorem specificStep2_ok (ctx : Ctx) (e : String) (r : ParsedTime)
    (h : specificStep2 ctx e = some r) : ResultOK e r ∧ r.confidence = 1 := by
  unfold specificStep2 at h
  split at h
  · split at h
    · rename_i r' heq
      obtain rfl := Option.some.inj h
      exact mkSpecificDate_ok _ _ _ _ _ heq
    · exact specificStep3_ok ctx e r h
  · exact specificStep3_ok ctx e r h

theorem parse_specific_date_ok (ctx : Ctx) (e : String) (r : ParsedTime)
    (h : parse_specific_date ctx e = some r) : ResultOK e r ∧ r.confidence = 1 := by
  unfold parse_specific_date at h
  split at h
  · split at h
    · rename_i r' heq
      obtain rfl := Option.some.inj h
      exact mkSpecificDate_ok _ _ _ _ _ heq
    · exact specificStep2_ok ctx e r h
  · exact specificStep2_ok ctx e r h

theorem parse_weekday_ok (ctx : Ctx) (e : String) (r : ParsedTime)
    (h : parse_weekday ctx e = some r) : ResultOK e r ∧ r.confidence = 0.95 := by
  unfold parse_weekday at h
  split at h
  · obtain rfl := Option.some.inj h
    exact ⟨⟨rfl, .inl ⟨rfl, _, rfl, fmtDate_ne_empty _⟩⟩, rfl⟩
  · exact Option.noConfusion h

theorem parse_single_raw_ok (ctx : Ctx) (e : String) (r : ParsedTime)
    (h : parse_single_raw ctx e = .ok (some r)) : ResultOK e r := by
  unfold parse_single_raw at h
  split at h
  · rename_i heq
    obtain rfl := Option.some.inj (Except.ok.inj h)
    exact (parse_holiday_ok ctx e _ heq).1
  · split at h
    · exact Except.noConfusion h
    · rename_i heq
      obtain rfl := Option.some.inj (Except.ok.inj h)
      exact (parse_relative_day_ok ctx e _ heq).1
    · split at h
      · exact Except.noConfusion h
      · rename_i heq
        obtain rfl := Option.some.inj (Except.ok.inj h)
        exact (parse_relative_week_ok ctx e _ heq).1
      · split at h
        · exact Except.noConfusion h
        · rename_i heq
          obtain rfl := Option.some.inj (Except.ok.inj h)
          exact (parse_relative_month_ok ctx e _ heq).1
        · split at h
          · exact Except.noConfusion h
          · rename_i heq
            obtain rfl := Option.some.inj (Except.ok.inj h)
            exact (parse_time_of_day_ok ctx e _ heq).1
          · split at h
            · rename_i heq
              obtain rfl := Option.some.inj (Except.ok.inj h)
              exact (parse_specific_date_ok ctx e _ heq).1
            · split at h
              · rename_i heq
                obtain rfl := Option.some.inj (Except.ok.inj h)
                exact (parse_weekday_ok ctx e _ heq).1
              · exact Option.noConfusion (Except.ok.inj h)

theorem firstVal_of_ok (e : String) (r : ParsedTime) (hR : ResultOK e r) :
    ∃ v, firstVal r.value = .ok v ∧ v ≠ "" ∧
      (r.value = .str v ∨ ∃ rest, r.value = .list (v :: rest)) := by
  rcases hR.2 with ⟨_, s, hv, hs⟩ | ⟨_, a, b, hv, ha, _⟩
  · exact ⟨s, by rw [hv]; rfl, hs, .inl hv⟩
  · exact ⟨a, by rw [hv]; rfl, ha, .inr ⟨[b], hv⟩⟩

theorem parse_single_elim (ctx : Ctx) (e : String) (t : String × Bool × ℚ)
    (h : parse_single ctx e = .ok (some t)) :
    ∃ pr, parse_single_raw ctx e = .ok (some pr) ∧ firstVal pr.value = .ok t.1 ∧
      t.2.1 = pr.is_date_only ∧ t.2.2 = pr.confidence := by
  unfold parse_single at h
  split at h
  · exact Except.noConfusion h
  · exact Option.noConfusion (Except.ok.inj h)
  · rename_i pr heq
    split at h
    · exact Except.noConfusion h
    · rename_i v heq2
      obtain rfl := Option.some.inj (Except.ok.inj h)
      exact ⟨pr, heq, heq2, rfl, rfl⟩

theorem parse_single_val_ne (ctx : Ctx) (e : String) (t : String × Bool × ℚ)
    (h : parse_single ctx e = .ok (some t)) : t.1 ≠ "" := by
  obtain ⟨pr, hraw, hfv, -, -⟩ := parse_single_elim ctx e t h
  obtain ⟨v, hv, hne, -⟩ := firstVal_of_ok e pr (parse_single_raw_ok ctx e pr hraw)
  rw [hv] at hfv
  exact (Except.ok.inj hfv) ▸ hne

theorem rangeLoop_elim (ctx : Ctx) (e : String) :
    ∀ (ps : List RangePat) (r : ParsedTime), rangeLoop ctx e ps = .ok (some r) →
    ∃ a b s t, parse_single ctx a = .ok (some s) ∧ parse_single ctx b = .ok (some t) ∧
      r = { value := .list [s.1, t.1], is_range := true, is_date_only := s.2.1 && t.2.1,
            original_expression := e, confidence := min s.2.2 t.2.2 } := by
  intro ps
  induction ps with
  | nil => exact fun r h => Option.noConfusion (Except.ok.inj h)
  | cons p ps ih =>
    intro r h
    rw [rangeLoop] at h
    split at h
    · exact ih r h
    · rename_i g heq
      split at h
      · exact Except.noConfusion h
      · rename_i sres heq1
        split at h
        · exact Except.noConfusion h
        · rename_i eres heq2
          split at h
          · rename_i s t
            obtain rfl := Option.some.inj (Except.ok.inj h)
            exact ⟨_, _, s, t, heq1, heq2, rfl⟩
          · exact ih r h

theorem parse_range_shape (ctx : Ctx) (e : String) (r : ParsedTime)
    (h : parse_range ctx e = .ok (some r)) : ResultOK e r ∧ r.is_range = true := by
  obtain ⟨a, b, s, t, hs, ht, rfl⟩ := rangeLoop_elim ctx e range_patterns r h
  exact ⟨⟨rfl, .inr ⟨rfl, _, _, rfl, parse_single_val_ne ctx a s hs,
    parse_single_val_ne ctx b t ht⟩⟩, rfl⟩

theorem parse_ok (ctx : Ctx) (e : String) (r : ParsedTime)
    (h : parse ctx e = .ok r) : ResultOK (pyStrip e) r := by
  unfold parse at h
  split at h
  · exact Except.noConfusion h
  · rename_i heq
    obtain rfl := Except.ok.inj h
    exact (parse_range_shape ctx _ _ heq).1
  · split at h
    · rename_i heq
      obtain rfl := Except.ok.inj h
      exact (parse_holiday_ok ctx _ _ heq).1
    · split at h
      · exact Except.noConfusion h
      · rename_i heq
        obtain rfl := Except.ok.inj h
        exact (parse_relative_day_ok ctx _ _ heq).1
      · split at h
        · rename_i heq
          obtain rfl := Except.ok.inj h
          exact (parse_weekday_ok ctx _ _ heq).1
        · split at h
          · exact Except.noConfusion h
          · rename_i heq
            obtain rfl := Except.ok.inj h
            exact (parse_relative_week_ok ctx _ _ heq).1
          · split at h
            · exact Except.noConfusion h
            · rename_i heq
              obtain rfl := Except.ok.inj h
              exact (parse_relative_month_ok ctx _ _ heq).1
            · split at h
              · exact Except.noConfusion h
              · rename_i heq
                obtain rfl := Except.ok.inj h
                exact (parse_time_of_day_ok ctx _ _ heq).1
              · split at h
                · rename_i heq
                  obtain rfl := Except.ok.inj h
                  exact (parse_specific_date_ok ctx _ _ heq).1
                · obtain rfl := Except.ok.inj h
                  exact ⟨rfl, .inl ⟨rfl, _, rfl, fmtDate_ne_empty _⟩⟩

theorem parse_all_decline (ctx : Ctx) (e : String)
    (h1 : parse_range ctx (pyStrip e) = .ok none)
    (h2 : parse_holiday ctx (pyStrip e) = none)
    (h3 : parse_relative_day ctx (pyStrip e) = .ok none)
    (h4 : parse_weekday ctx (pyStrip e) = none)
    (h5 : parse_relative_week ctx (pyStrip e) = .ok none)
    (h6 : parse_relative_month ctx (pyStrip e) = .ok none)
    (h7 : parse_time_of_day ctx (pyStrip e) = .ok none)
    (h8 : parse_specific_date ctx (pyStrip e) = none) :
    parse ctx e = .ok (fallbackResult ctx (pyStrip e)) := by
  simp only [parse, h1, h2, h3, h4, h5, h6, h7, h8]

/-! ## Claim theorems -/

/-- C1: the claim says `parse` never lets an exception escape for any text
input, naming `25点` and `3点70分` in particular.  The code contradicts it:
`_parse_time_of_day` feeds the matched hour/minute into the bare
`datetime(...)` constructor with no `try`, so both inputs raise `ValueError`
out of `parse`.  (The sibling `_parse_specific_date` catches exactly this
error, and the spec's error-handling design states the no-raise property
explicitly, so the missing guard is a code bug, not intended behavior.) -/
theorem C1_parse_raises_on_malformed_time :
    parse ctx0 "25点" = .error .valueError ∧
    parse ctx0 "3点70分" = .error .valueError :=
  ⟨rfl, rfl⟩

/-- C2 counterexample: `original_expression` is NOT the verbatim input when
the caller supplies leading/trailing whitespace — `parse` strips the
expression before recording it, so `" 今天"` is recorded as `"今天"`. -/
theorem C2_counterexample :
    parse ctx0 " 今天" = .ok { value := .str "2024-01-15", is_range := false,
                               is_date_only := true, original_expression := "今天",
                               confidence := 1 } ∧
    ("今天" : String) ≠ " 今天" :=
  ⟨rfl, by decide⟩

/-- C2 (amended): every `ParsedTime` returned by `parse` has
`original_expression` equal to the input with leading/trailing whitespace
stripped (and hence to the exact input only when the input carries no
surrounding whitespace). -/
theorem C2_original_expression_stripped (ctx : Ctx) (e : String) (r : ParsedTime)
    (h : parse ctx e = .ok r) : r.original_expression = pyStrip e :=
  (parse_ok ctx e r h).1

theorem C2_witness :
    ({ value := .str "2024-01-15", is_range := false, is_date_only := true,
       original_expression := "今天", confidence := 1 } : ParsedTime).original_expression
      = pyStrip " 今天" :=
  C2_original_expression_stripped ctx0 " 今天" _ rfl

/-- C3: the cascade tries range → holiday → relative-day → weekday →
relative-week → relative-month → time-of-day → specific-date in that order,
returns the first match without consulting later sub-parsers, and returns the
current-date fallback (point, date-only, confidence exactly 0.3) when all
decline — in particular for empty or whitespace-only input, whose stripped
form falls through every sub-parser. -/
theorem C3_cascade_order (ctx : Ctx) (e : String) :
    ((∀ r, parse_range ctx (pyStrip e) = .ok (some r) → parse ctx e = .ok r) ∧
     (parse_range ctx (pyStrip e) = .ok none →
       (∀ r, parse_holiday ctx (pyStrip e) = some r → parse ctx e = .ok r) ∧
       (parse_holiday ctx (pyStrip e) = none →
         (∀ r, parse_relative_day ctx (pyStrip e) = .ok (some r) → parse ctx e = .ok r) ∧
         (parse_relative_day ctx (pyStrip e) = .ok none →
           (∀ r, parse_weekday ctx (pyStrip e) = some r → parse ctx e = .ok r) ∧
           (parse_weekday ctx (pyStrip e) = none →
             (∀ r, parse_relative_week ctx (pyStrip e) = .ok (some r) → parse ctx e = .ok r) ∧
             (parse_relative_week ctx (pyStrip e) = .ok none →
               (∀ r, parse_relative_month ctx (pyStrip e) = .ok (some r) → parse ctx e = .ok r) ∧
               (parse_relative_month ctx (pyStrip e) = .ok none →
                 (∀ r, parse_time_of_day ctx (pyStrip e) = .ok (some r) → parse ctx e = .ok r) ∧
                 (parse_time_of_day ctx (pyStrip e) = .ok none →
                   (∀ r, parse_specific_date ctx (pyStrip e) = some r → parse ctx e = .ok r) ∧
                   (parse_specific_date ctx (pyStrip e) = none →
                     parse ctx e = .ok { value := .str (fmtDate ctx.todayOrd),
                                         is_range := false, is_date_only := true,
                                         original_expression := pyStrip e,
                                         confidence := 0.3 }))))))))) ∧
    (pyStrip e = "" →
      parse ctx e = .ok { value := .str (fmtDate ctx.todayOrd), is_range := false,
                          is_date_only := true, original_expression := "",
                          confidence := 0.3 }) := by
  refine ⟨⟨?_, ?_⟩, ?_⟩
  · intro r h1
    simp only [parse, h1]
  · intro h1
    refine ⟨?_, fun h2 => ?_⟩
    · intro r h2; simp only [parse, h1, h2]
    · refine ⟨?_, fun h3 => ?_⟩
      · intro r h3; simp only [parse, h1, h2, h3]
      · refine ⟨?_, fun h4 => ?_⟩
        · intro r h4; simp only [parse, h1, h2, h3, h4]
        · refine ⟨?_, fun h5 => ?_⟩
          · intro r h5; simp only [parse, h1, h2, h3, h4, h5]
          · refine ⟨?_, fun h6 => ?_⟩
            · intro r h6; simp only [parse, h1, h2, h3, h4, h5, h6]
            · refine ⟨?_, fun h7 => ?_⟩
              · intro r h7; simp only [parse, h1, h2, h3, h4, h5, h6, h7]
              · refine ⟨?_, fun h8 => ?_⟩
                · intro r h8; simp only [parse, h1, h2, h3, h4, h5, h6, h7, h8]
                · simp only [parse, h1, h2, h3, h4, h5, h6, h7, h8]
                  rfl
  · intro h0
    have h1 : parse_range ctx "" = .ok none := rfl
    have h2 : parse_holiday ctx "" = none := rfl
    have h3 : parse_relative_day ctx "" = .ok none := rfl
    have h4 : parse_weekday ctx "" = none := rfl
    have h5 : parse_relative_week ctx "" = .ok none := rfl
    have h6 : parse_relative_month ctx "" = .ok none := rfl
    have h7 : parse_time_of_day ctx "" = .ok none := rfl
    have h8 : parse_specific_date ctx "" = none := rfl
    simp only [parse, h0, h1, h2, h3, h4, h5, h6, h7, h8]
    rfl

theorem C3_witness :
    parse ctx0 "随便什么" = .ok { value := .str "2024-01-15", is_range := false,
                                  is_date_only := true, original_expression := "随便什么",
                                  confidence := 0.3 } :=
  ((((((((C3_cascade_order ctx0 "随便什么").1.2 rfl).2
    rfl).2 rfl).2 rfl).2 rfl).2 rfl).2 rfl).2 rfl

/-- C5: the weekday matcher is tried before the relative-week matcher, so
with now = 2024-01-15 (Monday) the input `上周三` parses to the single point
2024-01-10 — even though the relative-week matcher alone would have claimed
it as the last-week range, as the second conjunct shows. -/
theorem C5_weekday_before_relative_week :
    parse ctx0 "上周三" = .ok { value := .str "2024-01-10", is_range := false,
                                is_date_only := true, original_expression := "上周三",
                                confidence := 0.95 } ∧
    parse_relative_week ctx0 "上周三" =
      .ok (some { value := .list ["2024-01-08", "2024-01-14"], is_range := true,
                  is_date_only := true, original_expression := "上周三",
                  confidence := 0.95 }) :=
  ⟨rfl, rfl⟩

/-- C4: every range built by `_parse_range` from a separator split whose
halves both parse combines them as required: value is the pair of the halves'
point values (a half that itself yielded a range contributes its first
element), `is_range` is true, `is_date_only` is the conjunction of the
halves' flags and confidence is the minimum of the halves' confidences. -/
theorem C4_range_composition (ctx : Ctx) (e : String) (r : ParsedTime)
    (h : parse_range ctx e = .ok (some r)) :
    (∃ a b s t, parse_single ctx a = .ok (some s) ∧ parse_single ctx b = .ok (some t) ∧
      r.value = .list [s.1, t.1] ∧ r.is_range = true ∧ r.is_date_only = (s.2.1 && t.2.1) ∧
      r.confidence = min s.2.2 t.2.2) ∧
    (∀ e' t, parse_single ctx e' = .ok (some t) →
      ∃ pr, parse_single_raw ctx e' = .ok (some pr) ∧ t.2.1 = pr.is_date_only ∧
        t.2.2 = pr.confidence ∧
        (pr.value = .str t.1 ∨ ∃ rest, pr.value = .list (t.1 :: rest))) := by
  constructor
  · obtain ⟨a, b, s, t, hs, ht, rfl⟩ := rangeLoop_elim ctx e range_patterns r h
    exact ⟨a, b, s, t, hs, ht, rfl, rfl, rfl, rfl⟩
  · intro e' t ht
    obtain ⟨pr, hraw, hfv, hd, hc⟩ := parse_single_elim ctx e' t ht
    refine ⟨pr, hraw, hd, hc, ?_⟩
    obtain ⟨v, hv, -, hcase⟩ := firstVal_of_ok e' pr (parse_single_raw_ok ctx e' pr hraw)
    rw [hv] at hfv
    have hvt := Except.ok.inj hfv
    rcases hcase with hc2 | ⟨rest, hc2⟩
    · exact .inl (hvt ▸ hc2)
    · exact .inr ⟨rest, hvt ▸ hc2⟩

theorem C4_witness :
    ∃ a b s t, parse_single ctx0 a = .ok (some s) ∧ parse_single ctx0 b = .ok (some t) ∧
      (⟨.list ["2024-01-14", "2024-01-15"], true, true, "昨天到今天",
        min 1 1⟩ : ParsedTime).value = .list [s.1, t.1] ∧
      (⟨.list ["2024-01-14", "2024-01-15"], true, true, "昨天到今天",
        min 1 1⟩ : ParsedTime).is_range = true ∧
      (⟨.list ["2024-01-14", "2024-01-15"], true, true, "昨天到今天",
        min 1 1⟩ : ParsedTime).is_date_only = (s.2.1 && t.2.1) ∧
      (⟨.list ["2024-01-14", "2024-01-15"], true, true, "昨天到今天",
        min 1 1⟩ : ParsedTime).confidence = min s.2.2 t.2.2 :=
  (C4_range_composition ctx0 "昨天到今天"
    ⟨.list ["2024-01-14", "2024-01-15"], true, true, "昨天到今天", min 1 1⟩ rfl).1

/-- C6: exact named-token matches (holiday names and the relative day/week/
month tables) yield confidence at least 0.95; numeral-offset patterns yield
confidence within [0.85, 0.95]; the fallback yields exactly 0.3; and within
each category having both forms the named confidence dominates the numeral
confidence. -/
theorem C6_confidence_ordering (ctx : Ctx) (e : String) :
    (∀ r, parse_holiday ctx e = some r → (0.95 : ℚ) ≤ r.confidence) ∧
    (∀ r, relDayNamed ctx e = some r → (0.95 : ℚ) ≤ r.confidence) ∧
    (∀ r, relWeekNamed ctx e = some r → (0.95 : ℚ) ≤ r.confidence) ∧
    (∀ r, relMonthNamed ctx e = some r → (0.95 : ℚ) ≤ r.confidence) ∧
    (∀ r, relDayPatLoop ctx e relDayPats = .ok (some r) →
      (0.85 : ℚ) ≤ r.confidence ∧ r.confidence ≤ 0.95) ∧
    (∀ r, relWeekPatLoop ctx e relWeekPats = .ok (some r) →
      (0.85 : ℚ) ≤ r.confidence ∧ r.confidence ≤ 0.95) ∧
    (∀ r, relMonthPatLoop ctx e relMonthPats = .ok (some r) →
      (0.85 : ℚ) ≤ r.confidence ∧ r.confidence ≤ 0.95) ∧
    (∀ r1 r2, relDayNamed ctx e = some r1 → relDayPatLoop ctx e relDayPats = .ok (some r2) →
      r2.confidence ≤ r1.confidence) ∧
    (∀ r1 r2, relWeekNamed ctx e = some r1 → relWeekPatLoop ctx e relWeekPats = .ok (some r2) →
      r2.confidence ≤ r1.confidence) ∧
    (∀ r1 r2, relMonthNamed ctx e = some r1 →
      relMonthPatLoop ctx e relMonthPats = .ok (some r2) →
      r2.confidence ≤ r1.confidence) ∧
    (fallbackResult ctx e).confidence = 0.3 ∧
    (∀ r, parse ctx e = .ok r →
      parse_range ctx (pyStrip e) = .ok none → parse_holiday ctx (pyStrip e) = none →
      parse_relative_day ctx (pyStrip e) = .ok none → parse_weekday ctx (pyStrip e) = none →
      parse_relative_week ctx (pyStrip e) = .ok none →
      parse_relative_month ctx (pyStrip e) = .ok none →
      parse_time_of_day ctx (pyStrip e) = .ok none →
      parse_specific_date ctx (pyStrip e) = none →
      r.confidence = 0.3) := by
  refine ⟨?_, ?_, ?_, ?_, ?_, ?_, ?_, ?_, ?_, ?_, rfl, ?_⟩
  · intro r h; rw [(parse_holiday_ok ctx e r h).2]
  · intro r h; rw [(relDayNamed_ok ctx e r h).2]; norm_num
  · intro r h; rw [(relWeekNamed_ok ctx e r h).2]
  · intro r h; rw [(relMonthNamed_ok ctx e r h).2]
  · intro r h; rw [(relDayPatLoop_ok ctx e _ r h).2]; constructor <;> norm_num
  · intro r h; rw [(relWeekPatLoop_ok ctx e _ r h).2]; constructor <;> norm_num
  · intro r h; rw [(relMonthPatLoop_ok ctx e _ r h).2]; constructor <;> norm_num
  · intro r1 r2 h1 h2
    rw [(relDayNamed_ok ctx e r1 h1).2, (relDayPatLoop_ok ctx e _ r2 h2).2]; norm_num
  · intro r1 r2 h1 h2
    rw [(relWeekNamed_ok ctx e r1 h1).2, (relWeekPatLoop_ok ctx e _ r2 h2).2]; norm_num
  · intro r1 r2 h1 h2
    rw [(relMonthNamed_ok ctx e r1 h1).2, (relMonthPatLoop_ok ctx e _ r2 h2).2]; norm_num
  · intro r h h1 h2 h3 h4 h5 h6 h7 h8
    have hf := parse_all_decline ctx e h1 h2 h3 h4 h5 h6 h7 h8
    rw [h] at hf
    obtain rfl := Except.ok.inj hf
    rfl

theorem C6_witness :
    (0.95 : ℚ) ≤ (⟨.str "2024-01-15", false, true, "今天", 1⟩ : ParsedTime).confidence :=
  (C6_confidence_ordering ctx0 "今天").2.1 _ rfl

/-- C7: every `ParsedTime` returned by `parse` satisfies the shape invariant:
`is_range` holds exactly when `value` is a list, every such list has exactly
two elements, and every string in `value` is nonempty. -/
theorem C7_shape_invariant (ctx : Ctx) (e : String) (r : ParsedTime)
    (h : parse ctx e = .ok r) :
    (r.is_range = true ↔ ∃ xs, r.value = .list xs) ∧
    (∀ xs, r.value = .list xs → xs.length = 2) ∧
    (∀ s, r.value = .str s → s ≠ "") ∧
    (∀ xs s, r.value = .list xs → s ∈ xs → s ≠ "") := by
  obtain ⟨-, hcase⟩ := parse_ok ctx e r h
  rcases hcase with ⟨hr, s, hv, hs⟩ | ⟨hr, a, b, hv, ha, hb⟩
  · refine ⟨⟨fun h2 => absurd (hr ▸ h2) (by simp), ?_⟩, ?_, ?_, ?_⟩
    · rintro ⟨xs, hxs⟩
      rw [hv] at hxs
      exact Value.noConfusion hxs
    · intro xs hxs
      rw [hv] at hxs
      exact absurd hxs (by simp)
    · intro s' hs'
      rw [hv] at hs'
      exact (Value.str.inj hs') ▸ hs
    · intro xs s' hxs
      rw [hv] at hxs
      exact absurd hxs (by simp)
  · refine ⟨⟨fun _ => ⟨[a, b], hv⟩, fun _ => hr⟩, ?_, ?_, ?_⟩
    · intro xs hxs
      rw [hv] at hxs
      rw [← Value.list.inj hxs]
      rfl
    · intro s' hs'
      rw [hv] at hs'
      exact absurd hs' (by simp)
    · intro xs s' hxs hmem
      rw [hv] at hxs
      rw [← Value.list.inj hxs] at hmem
      rcases hmem with _ | ⟨_, hmem⟩
      · exact ha
      · rcases hmem with _ | ⟨_, hmem⟩
        · exact hb
        · cases hmem

theorem C7_witness :
    (["2024-01-08", "2024-01-14"] : List String).length = 2 :=
  (C7_shape_invariant ctx0 "上周"
    ⟨.list ["2024-01-08", "2024-01-14"], true, true, "上周", 0.95⟩ rfl).2.1 _ rfl

/-- C8: when the lunar collaborator is unavailable (every query answers
`none`), `_lunar_to_solar` yields no date rather than an error, the lunar
branch of the holiday sub-parser never matches (the solar and Qingming
branches alone decide it), and a lunar-holiday expression such as `中秋节`
falls through the whole cascade to the 0.3-confidence fallback with no error
surfaced. -/
theorem C8_lunar_unavailable (ctx : Ctx) (e : String)
    (h : ∀ y m d, ctx.zh y m d = none) :
    (∀ y m d, lunar_to_solar ctx y m d = none) ∧
    holidayLunar ctx e = none ∧
    parse_holiday ctx e = (match holidaySolar ctx e with
                           | some r => some r
                           | none => holidayQingming ctx e) ∧
    parse ctx "中秋节" = .ok (fallbackResult ctx "中秋节") := by
  have hls : ∀ y m d, lunar_to_solar ctx y m d = none := by
    intro y m d
    unfold lunar_to_solar
    split
    · rw [h]
      rfl
    · exact h y m d
  have hloop : ∀ (l : List (String × Nat × Nat × Nat)) (y : Int),
      holidayLunarLoop ctx e y l = none := by
    intro l y
    induction l with
    | nil => rfl
    | cons hd tl ih =>
      rw [holidayLunarLoop]
      split
      · simp only [hls]
        exact ih
      · exact ih
  have hlun : ∀ (e' : String) (l : List (String × Nat × Nat × Nat)) (y : Int),
      holidayLunarLoop ctx e' y l = none := by
    intro e' l y
    induction l with
    | nil => rfl
    | cons hd tl ih =>
      rw [holidayLunarLoop]
      split
      · simp only [hls]
        exact ih
      · exact ih
  refine ⟨hls, hloop LUNAR_HOLIDAYS _, ?_, ?_⟩
  · simp only [parse_holiday, holidayLunar, hloop]
  · have h2 : parse_holiday ctx "中秋节" = none := by
      simp only [parse_holiday, holidayLunar, hlun]
      rfl
    exact parse_all_decline ctx "中秋节" rfl h2 rfl rfl rfl rfl rfl rfl

theorem C8_witness :
    holidayLunar ctx0 "中秋节" = none ∧
    parse ctx0 "中秋节" = .ok (fallbackResult ctx0 "中秋节") :=
  ⟨(C8_lunar_unavailable ctx0 "中秋节" (fun _ _ _ => rfl)).2.1,
   (C8_lunar_unavailable ctx0 "中秋节" (fun _ _ _ => rfl)).2.2.2⟩

/-- C9 counterexample: the claim's converter is neither total nor
defaulting-to-1 outside its rules.  Rule (a) of the claim reads ASCII digits,
but the source's `cn.isdigit()` / `int(cn)` are Unicode: the fullwidth digit
`５` (U+FF15) is not an ASCII digit, is not a table entry and is not a
`十`-form (it is a single character), so the claim says it resolves to 1 —
yet the code returns 5; and the superscript `²` (U+00B2) is `isdigit`-true
but rejected by `int()`, so the converter raises `ValueError`, refuting
"never signals failure". -/
theorem C9_counterexample :
    cn_to_num "５" = .ok 5 ∧
    ("５".data.all Char.isDigit) = false ∧
    dictGet CN_NUMBERS "５" = none ∧
    "５".data.length = 1 ∧
    cn_to_num "²" = .error .valueError :=
  ⟨rfl, rfl, rfl, rfl, rfl⟩

/-- C9 (amended): `_cn_to_num` follows the source's resolution order under
Python's Unicode semantics: an `isdigit()`-true token resolves as `int()`
does — to its decimal value when every character is a decimal digit (Nd, any
script, e.g. `５`), and to a `ValueError` when it contains a digit-typed
non-decimal character (e.g. `²`), so the converter is NOT total; every other
token resolves without failure: exact table entry, `十X` as 10+X, `X十` as
X×10, a length-3 `十`-containing token as tens×10+ones, and exactly 1 for a
token matching no rule. -/
theorem C9_cn_to_num_resolution (s : String) :
    ((s.data != [] && s.data.all pyCharIsDigit) = true →
      (s.data.all isNdChar = true → cn_to_num s = .ok ((digitsToNat s.data : ℚ))) ∧
      (s.data.all isNdChar = false → cn_to_num s = .error .valueError)) ∧
    ((s.data != [] && s.data.all pyCharIsDigit) = false →
      ∀ v, dictGet CN_NUMBERS s = some v → cn_to_num s = .ok v) ∧
    ((s.data != [] && s.data.all pyCharIsDigit) = false →
      dictGet CN_NUMBERS s = none →
      (s.data.length == 2 && s.data.getD 0 ' ' == '十') = true →
      cn_to_num s = .ok (10 + charVal (s.data.getD 1 ' '))) ∧
    ((s.data != [] && s.data.all pyCharIsDigit) = false →
      dictGet CN_NUMBERS s = none →
      (s.data.length == 2 && s.data.getD 0 ' ' == '十') = false →
      (s.data.length == 2 && s.data.getD 1 ' ' == '十') = true →
      cn_to_num s = .ok (charVal (s.data.getD 0 ' ') * 10)) ∧
    ((s.data != [] && s.data.all pyCharIsDigit) = false →
      dictGet CN_NUMBERS s = none →
      (s.data.length == 2 && s.data.getD 0 ' ' == '十') = false →
      (s.data.length == 2 && s.data.getD 1 ' ' == '十') = false →
      (s.data.contains '十' && s.data.length == 3) = true →
      cn_to_num s = .ok
        ((dictGet CN_NUMBERS (String.mk ((splitOnChar '十' s.data).getD 0 []))).getD 0 * 10 +
          (dictGet CN_NUMBERS (String.mk ((splitOnChar '十' s.data).getD 1 []))).getD 0)) ∧
    ((s.data != [] && s.data.all pyCharIsDigit) = false →
      dictGet CN_NUMBERS s = none →
      (s.data.length == 2 && s.data.getD 0 ' ' == '十') = false →
      (s.data.length == 2 && s.data.getD 1 ' ' == '十') = false →
      (s.data.contains '十' && s.data.length == 3) = false →
      cn_to_num s = .ok 1) := by
  refine ⟨fun h1 => ⟨?_, ?_⟩, ?_, ?_, ?_, ?_, ?_⟩
  · intro h2
    simp only [cn_to_num, h1, h2]
    rfl
  · intro h2
    simp only [cn_to_num, h1, h2]
    rfl
  · intro h1 v h2
    simp only [cn_to_num, h1, h2]
    rfl
  · intro h1 h2 h3
    simp only [cn_to_num, h1, h2, h3]
    rfl
  · intro h1 h2 h3 h4
    simp only [cn_to_num, h1, h2, h3, h4]
    rfl
  · intro h1 h2 h3 h4 h5
    simp only [cn_to_num, h1, h2, h3, h4, h5]
    rfl
  · intro h1 h2 h3 h4 h5
    simp only [cn_to_num, h1, h2, h3, h4, h5]
    rfl

theorem C9_witness :
    cn_to_num "葡萄" = .ok 1 ∧ cn_to_num "15" = .ok ((digitsToNat "15".data : ℚ)) :=
  ⟨(C9_cn_to_num_resolution "葡萄").2.2.2.2.2 rfl rfl rfl rfl rfl,
   ((C9_cn_to_num_resolution "15").1 rfl).1 rfl⟩

theorem todSearch_complete (cs : List Char) :
    ∀ (i : Nat) (m : TodMatch), todTryPeriods (List.drop i cs) periodStrs = some m →
      (todSearch cs).isSome = true := by
  induction cs with
  | nil =>
    intro i m h
    rw [List.drop_nil] at h
    exact Option.noConfusion ((show todTryPeriods [] periodStrs = none from rfl).symm.trans h)
  | cons c rest ih =>
    intro i m h
    cases i with
    | zero =>
      rw [List.drop_zero] at h
      rw [todSearch, h]
      rfl
    | succ j =>
      have h' : todTryPeriods (List.drop j rest) periodStrs = some m := h
      have hs := ih j m h'
      rw [todSearch]
      split
      · rfl
      · exact hs

/-- C10 counterexample: the claim promises a 0.9-confidence time-of-day
result for EVERY expression embedding a `<number>点` occurrence once earlier
cascade entries decline, but `嗯25点` — where all six earlier entries decline
and the pattern does match — makes `parse` raise `ValueError` instead
(hour 25 reaches the unguarded `datetime(...)` constructor). -/
theorem C10_counterexample :
    parse_range ctx0 "嗯25点" = .ok none ∧
    parse_holiday ctx0 "嗯25点" = none ∧
    parse_relative_day ctx0 "嗯25点" = .ok none ∧
    parse_weekday ctx0 "嗯25点" = none ∧
    parse_relative_week ctx0 "嗯25点" = .ok none ∧
    parse_relative_month ctx0 "嗯25点" = .ok none ∧
    (todSearch "嗯25点".data).isSome = true ∧
    parse ctx0 "嗯25点" = .error .valueError :=
  ⟨rfl, rfl, rfl, rfl, rfl, rfl, rfl, rfl⟩

/-- C10 (amended): the time-of-day pattern is searched at every position of
the expression (first conjunct: a match anywhere makes the unanchored search
succeed), and whenever no earlier cascade entry matches and the leftmost
match resolves to a valid clock time (hour 0–23, minute 0–59), `parse`
returns that time-of-day point with confidence 0.9 rather than the fallback;
a leftmost match with an invalid hour or minute instead raises, as the
counterexample shows. -/
theorem C10_tod_unanchored :
    (∀ (cs : List Char) (i : Nat) (m : TodMatch),
      todTryPeriods (List.drop i cs) periodStrs = some m →
      (todSearch cs).isSome = true) ∧
    (∀ (ctx : Ctx) (e : String) (m : TodMatch) (hh mi : Int),
      parse_range ctx (pyStrip e) = .ok none →
      parse_holiday ctx (pyStrip e) = none →
      parse_relative_day ctx (pyStrip e) = .ok none →
      parse_weekday ctx (pyStrip e) = none →
      parse_relative_week ctx (pyStrip e) = .ok none →
      parse_relative_month ctx (pyStrip e) = .ok none →
      todSearch (pyStrip e).data = some m →
      todResolve m = .ok (hh, mi) →
      (0 ≤ hh && hh ≤ 23 && 0 ≤ mi && mi ≤ 59) = true →
      parse ctx e = .ok { value := .str (fmtDateTime ctx.todayOrd hh.toNat mi.toNat 0),
                          is_range := false, is_date_only := false,
                          original_expression := pyStrip e, confidence := 0.9 }) := by
  constructor
  · exact todSearch_complete
  · intro ctx e m hh mi h1 h2 h3 h4 h5 h6 h7 h8 hcond
    have htod : parse_time_of_day ctx (pyStrip e) =
        .ok (some { value := .str (fmtDateTime ctx.todayOrd hh.toNat mi.toNat 0),
                    is_range := false, is_date_only := false,
                    original_expression := pyStrip e, confidence := 0.9 }) := by
      simp only [parse_time_of_day, h7, h8, hcond]
      rfl
    simp only [parse, h1, h2, h3, h4, h5, h6, htod]

theorem C10_witness :
    (todSearch "嗯3点".data).isSome = true ∧
    parse ctx0 "嗯3点" = .ok { value := .str "2024-01-15 03:00:00", is_range := false,
                                is_date_only := false, original_expression := "嗯3点",
                                confidence := 0.9 } :=
  ⟨C10_tod_unanchored.1 "嗯3点".data 1 ⟨none, ['3'], none⟩ rfl,
   C10_tod_unanchored.2 ctx0 "嗯3点" ⟨none, ['3'], none⟩ 3 0
     rfl rfl rfl rfl rfl rfl rfl rfl rfl⟩

end ChineseTime
